import Mathlib

/-!
Verification of the go-ftp-client repository against its specification.

Strings from the Go source are modelled as `List Char` (the program only
handles line-oriented ASCII protocol text).  Each definition below is a
shallow embedding of the Go function of the same name from
`ftp_connection.go`, `ftp_commands.go` (provided unnamed) and
`command_registry.go`; helper functions model the Go standard-library
calls the source makes (`strings.Cut`, `strings.Split`, `strings.Fields`,
`strconv.Atoi`, `fmt.Sprintf` with `%d`, ...).
-/

/-- Model of a decimal digit character, used to render `%d` output. -/
def digitChar (n : Nat) : Char :=
  match n with
  | 0 => '0' | 1 => '1' | 2 => '2' | 3 => '3' | 4 => '4'
  | 5 => '5' | 6 => '6' | 7 => '7' | 8 => '8' | _ => '9'

/-- Recognises an ASCII decimal digit, as `strconv.Atoi` does. -/
def isDigitChar (c : Char) : Bool :=
  decide (48 ≤ c.toNat) && decide (c.toNat ≤ 57)

/-- Numeric value of a digit character. -/
def digitVal (c : Char) : Nat := c.toNat - 48

/-- Value of a digit string, most significant digit first. -/
def digitsToNat (l : List Char) : Nat :=
  l.foldl (fun a c => a * 10 + digitVal c) 0

/-- Fuel-driven rendering of a natural number in decimal (the fuel is
always sufficient because dividing by ten strictly decreases). -/
def natDigitsAux : Nat → Nat → List Char → List Char
  | 0, _, acc => acc
  | fuel + 1, n, acc =>
    if n < 10 then digitChar n :: acc
    else natDigitsAux fuel (n / 10) (digitChar (n % 10) :: acc)

/-- Decimal rendering of a natural number, as `fmt.Sprintf` prints it. -/
def natDigits (n : Nat) : List Char := natDigitsAux (n + 1) n []

/-- Decimal rendering of an integer, as Go's `%d` verb prints it. -/
def intRepr : Int → List Char
  | Int.ofNat n => natDigits n
  | Int.negSucc n => '-' :: natDigits (n + 1)

/-- Model of Go's `strconv.Atoi`: an optional sign followed by a nonempty
run of decimal digits; values outside the signed 64-bit range are a range
error (reported through `none`, as the Go callers treat any `err`). -/
def atoi (s : List Char) : Option Int :=
  match s with
  | [] => none
  | c :: rest =>
    let ds := if c = '-' ∨ c = '+' then rest else c :: rest
    if ds = [] then none
    else if ds.all isDigitChar then
      let v := digitsToNat ds
      if c = '-' then
        if v ≤ 2 ^ 63 then some (-(v : Int)) else none
      else
        if v < 2 ^ 63 then some ((v : Int)) else none
    else none

/-- Model of Go's `strings.Cut(s, sep)` for a one-character separator:
splits around the first occurrence, `none` when the separator is absent. -/
def cutChar (sep : Char) : List Char → Option (List Char × List Char)
  | [] => none
  | c :: cs =>
    if c = sep then some ([], cs)
    else
      match cutChar sep cs with
      | none => none
      | some (pre, post) => some (c :: pre, post)

/-- Model of Go's `strings.Split(s, sep)` for a one-character separator. -/
def splitOnChar (sep : Char) : List Char → List (List Char)
  | [] => [[]]
  | c :: cs =>
    if c = sep then [] :: splitOnChar sep cs
    else
      match splitOnChar sep cs with
      | [] => [[c]]
      | p :: ps => (c :: p) :: ps

/-- Model of Go's `strings.Join(parts, sep)` for a one-character separator. -/
def joinSep (sep : Char) : List (List Char) → List Char
  | [] => []
  | [x] => x
  | x :: xs => x ++ sep :: joinSep sep xs

/-- One iteration of `parseAddr`'s octet validation: `strconv.Atoi`
succeeds and the value lies in `[0, 255]`. -/
def validOctet (p : List Char) : Bool :=
  match atoi p with
  | none => false
  | some num => decide (0 ≤ num) && decide (num ≤ 255)

/-- Embedding of `parseAddr` from `ftp_connection.go`: cut at the first
parentheses, split the interior on commas, demand six fields, range-check
the first four as IP octets, parse the two port halves with `Atoi` and
render `host:port` with the port computed as `portH*256 + portL`. -/
def parseAddr (pasvResp : List Char) : Option (List Char) :=
  match cutChar '(' pasvResp with
  | none => none
  | some (_, after) =>
    match cutChar ')' after with
    | none => none
    | some (numbersStr, _) =>
      let parts := splitOnChar ',' numbersStr
      if parts.length ≠ 6 then none
      else if (parts.take 4).all validOctet then
        let addr := joinSep '.' (parts.take 4)
        match atoi (parts.getD 4 []) with
        | none => none
        | some portH =>
          match atoi (parts.getD 5 []) with
          | none => none
          | some portL => some (addr ++ ':' :: intRepr (portH * 256 + portL))
      else none

/-- Closing condition of a multi-line response: at least four characters,
the leading three equal the block's code, and the fourth is a space
(`line[:3] == code && line[3] == ' '` in `readResponse`). -/
def isCloseLine (code line : List Char) : Bool :=
  decide (4 ≤ line.length) && decide (line.take 3 = code) &&
    decide (line.getD 3 ' ' = ' ')

/-- Opening condition of a multi-line response: at least four characters
and the fourth is a hyphen (`len(line) >= 4 && line[3] == '-'`). -/
def isMultiStart (line : List Char) : Bool :=
  decide (4 ≤ line.length) && decide (line.getD 3 ' ' = '-')

/-- The continuation loop of `readResponse`: keep consuming lines until one
satisfies the closing condition; running out of lines is the model of an
I/O error from `ReadString`.  Returns the concatenated consumed text and
the unread remainder of the stream. -/
def readMulti (code : List Char) : List (List Char) → Option (List Char × List (List Char))
  | [] => none
  | line :: rest =>
    if isCloseLine code line then some (line, rest)
    else
      match readMulti code rest with
      | none => none
      | some (acc, s) => some (line ++ acc, s)

/-- Embedding of `readResponse` from `ftp_connection.go` over a control
channel modelled as the list of `'\n'`-terminated lines it will deliver;
an exhausted list models a transport error (premature end of stream), in
which case the partially assembled text is discarded. -/
def readResponse (stream : List (List Char)) : Option (List Char × List (List Char)) :=
  match stream with
  | [] => none
  | line :: rest =>
    if isMultiStart line then
      match readMulti (line.take 3) rest with
      | none => none
      | some (acc, s) => some (line ++ acc, s)
    else some (line, rest)

/-- Embedding of `isSuccessResponse`: nonempty and starting with `'2'`. -/
def isSuccessResponse (response : List Char) : Bool :=
  decide (0 < response.length) && (['2'].isPrefixOf response)

/-- State of a Go channel used by the keep-alive machinery: `unset` models
the `nil` zero value, `opened` a live channel, `closed` a closed one. -/
inductive ChanSt
  | unset
  | opened
  | closed
deriving DecidableEq, Repr

/-- The fields of the Go `FTPConnection` struct that the command handlers
read or write (the socket and `bufio.Reader` live in the `World` model
below; `remoteHost` is the host part of `conn.RemoteAddr()` that
`parseEPSVAddr` consults). -/
structure FTPConnection where
  user : List Char
  pass : List Char
  isAuthenticated : Bool
  dataAddr : List Char
  keepaliveStop : ChanSt
  remoteHost : List Char
deriving DecidableEq, Repr

/-- Embedding of `startKeepAlive`: fresh stop/done channels are created and
the background goroutine is launched. -/
def startKeepAlive (f : FTPConnection) : FTPConnection :=
  { f with keepaliveStop := ChanSt.opened }

/-- Embedding of `stopKeepAlive` together with Go's channel semantics:
a `nil` channel fails the guard and nothing happens; closing a live
channel succeeds (and the receive from `keepaliveDone` completes because
the goroutine closes it on exit); but `close` of an already-closed
channel is a runtime panic, modelled as `Except.error`. -/
def stopKeepAlive (f : FTPConnection) : Except Unit FTPConnection :=
  match f.keepaliveStop with
  | ChanSt.unset => Except.ok f
  | ChanSt.opened => Except.ok { f with keepaliveStop := ChanSt.closed }
  | ChanSt.closed => Except.error ()

/-- Embedding of `parseEPSVAddr` from `ftp_connection.go`:
`strings.Index` of `'('` and of `')'` are both taken from the start of the
string; the port is the fourth `|`-separated field and the host comes from
the control connection's remote address.  When the first `')'` precedes
the first `'('` the Go slice expression panics; the model returns
`Except.error` for that case. -/
def parseEPSVAddr (remoteHost : List Char) (epsvResp : List Char) : Except Unit (Option (List Char)) :=
  match List.findIdx? (fun c => c = '(') epsvResp, List.findIdx? (fun c => c = ')') epsvResp with
  | none, _ => Except.ok none
  | _, none => Except.ok none
  | some start, some stop =>
    if start + 1 ≤ stop then
      let portPart := (epsvResp.drop (start + 1)).take (stop - (start + 1))
      let parts := splitOnChar '|' portPart
      if parts.length < 4 then Except.ok none
      else Except.ok (some (remoteHost ++ ':' :: parts.getD 3 []))
    else Except.error ()

/-- ASCII whitespace as `unicode.IsSpace` classifies it for the protocol
text this client handles (space, tab, newline, vertical tab, form feed,
carriage return). -/
def goIsSpace (c : Char) : Bool :=
  decide (c.toNat = 32) || decide (c.toNat = 9) || decide (c.toNat = 10) ||
    decide (c.toNat = 11) || decide (c.toNat = 12) || decide (c.toNat = 13)

/-- Accumulator worker for `goFields`. -/
def goFieldsAux : List Char → List Char → List (List Char)
  | [], cur => if cur = [] then [] else [cur.reverse]
  | c :: cs, cur =>
    if goIsSpace c then
      if cur = [] then goFieldsAux cs []
      else cur.reverse :: goFieldsAux cs []
    else goFieldsAux cs (c :: cur)

/-- Model of Go's `strings.Fields`: split around runs of whitespace,
dropping empty fields. -/
def goFields (l : List Char) : List (List Char) := goFieldsAux l []

/-- Model of Go's `strings.TrimSpace` (ASCII range). -/
def trimSpace (l : List Char) : List Char :=
  ((l.dropWhile goIsSpace).reverse.dropWhile goIsSpace).reverse

/-- Model of Go's `strings.ToLower` on the ASCII range the client's
protocol text uses: uppercase ASCII letters are shifted down by 32. -/
def goToLower (c : Char) : Char :=
  if 65 ≤ c.toNat ∧ c.toNat ≤ 90 then Char.ofNat (c.toNat + 32) else c

/-- ASCII upcasing, used to state case-insensitivity of the REPL. -/
def asciiUpper (c : Char) : Char :=
  if 97 ≤ c.toNat ∧ c.toNat ≤ 122 then Char.ofNat (c.toNat - 32) else c

/-- Embedding of `cleanInput` from `ftp_connection.go`:
`strings.Fields(strings.ToLower(strings.TrimSpace(input)))`. -/
def cleanInput (input : List Char) : List (List Char) :=
  goFields ((trimSpace input).map goToLower)

/-- The command words of `commandRegistry` in `command_registry.go`. -/
inductive CmdName
  | auth | pwd | pasv | epsv | list | cwd | cdup | retr | stor | stat
  | size | quit | help | serverhelp
deriving DecidableEq, Repr

/-- Embedding of the `commandRegistry` map: lookup by command word. -/
def commandRegistry (w : List Char) : Option CmdName :=
  if w = ("auth").data then some CmdName.auth
  else if w = ("pwd").data then some CmdName.pwd
  else if w = ("pasv").data then some CmdName.pasv
  else if w = ("epsv").data then some CmdName.epsv
  else if w = ("list").data then some CmdName.list
  else if w = ("cwd").data then some CmdName.cwd
  else if w = ("cdup").data then some CmdName.cdup
  else if w = ("retr").data then some CmdName.retr
  else if w = ("stor").data then some CmdName.stor
  else if w = ("stat").data then some CmdName.stat
  else if w = ("size").data then some CmdName.size
  else if w = ("quit").data then some CmdName.quit
  else if w = ("help").data then some CmdName.help
  else if w = ("serverhelp").data then some CmdName.serverhelp
  else none

/-- What one iteration of `StartREPL`'s loop does with an input line:
ignore blank input, report an unknown word, or dispatch the registered
handler on the remaining tokens. -/
inductive ReplAction
  | noInput
  | unknown
  | dispatch (c : CmdName) (args : List (List Char))
deriving DecidableEq, Repr

/-- Embedding of the dispatch step of `StartREPL`: clean the line, look the
first token up in the registry, pass the rest as arguments. -/
def replStep (input : List Char) : ReplAction :=
  match cleanInput input with
  | [] => ReplAction.noInput
  | w :: rest =>
    match commandRegistry w with
    | some cmd => ReplAction.dispatch cmd rest
    | none => ReplAction.unknown

/-- Warnings the command handlers print without failing: the size-lookup
warning in `handleRetr` and the `426` soft warning after a transfer. -/
inductive Warn
  | sizeWarn
  | closeWarn
deriving DecidableEq, Repr

/-- The world a command handler acts on: the session struct, the control
channel's incoming lines, the trace of command lines written to it, the
warnings printed, and whether `os.Exit` was reached. -/
structure World where
  conn : FTPConnection
  stream : List (List Char)
  sent : List (List Char)
  warns : List Warn
  exited : Bool
deriving DecidableEq, Repr

/-- Non-control-channel effects a transfer command depends on: whether the
data-connection dial, the local file open/create, and the byte copy
succeed. -/
structure Env where
  dialOk : Bool
  fileOk : Bool
  copyOk : Bool
deriving DecidableEq, Repr

/-- The error returns of the command handlers (`fmt.Errorf` values
classified by which source line produces them). -/
inductive CmdErr
  | notAuthenticated
  | transport
  | statusErr (resp : List Char)
  | parseErr
  | noDataAddr
  | missingArg
  | dialErr
  | localFileErr
  | copyErr
  | transferFailed (resp : List Char)
  | sizeErr
deriving DecidableEq, Repr

/-- Handler outcome: normal return, error return, or a Go runtime panic. -/
inductive HRes
  | ok
  | errRes (e : CmdErr)
  | panicked
deriving DecidableEq, Repr

/-- Embedding of `sendCommand`: write the command line, then read one
logical response; the write happens before the read, so the command is on
the wire even when the response read fails. -/
def sendCommand (cmd : List Char) (w : World) : Option (List Char) × World :=
  let w2 : World := { w with sent := w.sent ++ [cmd] }
  match readResponse w2.stream with
  | none => (none, w2)
  | some (resp, rest) => (some resp, { w2 with stream := rest })

/-- Embedding of `requireAuth` from the command file. -/
def requireAuth (conn : FTPConnection) : Option CmdErr :=
  if conn.isAuthenticated then none else some CmdErr.notAuthenticated

/-- Embedding of `handleAuthenticate`: `USER`, require `331`; `PASS`,
require a success response; only then set the flag and start the
keep-alive loop. -/
def handleAuthenticate (args : List (List Char)) (w : World) : HRes × World :=
  match sendCommand (("USER ").data ++ w.conn.user) w with
  | (none, w2) => (HRes.errRes CmdErr.transport, w2)
  | (some resp, w2) =>
    if ¬ (("331").data.isPrefixOf resp) then (HRes.errRes (CmdErr.statusErr resp), w2)
    else
      match sendCommand (("PASS ").data ++ w2.conn.pass) w2 with
      | (none, w3) => (HRes.errRes CmdErr.transport, w3)
      | (some resp2, w3) =>
        if ¬ isSuccessResponse resp2 then (HRes.errRes (CmdErr.statusErr resp2), w3)
        else
          (HRes.ok,
            { w3 with conn := startKeepAlive { w3.conn with isAuthenticated := true } })

/-- Embedding of `handlePWD`. -/
def handlePWD (args : List (List Char)) (w : World) : HRes × World :=
  match requireAuth w.conn with
  | some e => (HRes.errRes e, w)
  | none =>
    match sendCommand (("PWD").data) w with
    | (none, w2) => (HRes.errRes CmdErr.transport, w2)
    | (some resp, w2) =>
      if ¬ isSuccessResponse resp then (HRes.errRes (CmdErr.statusErr resp), w2)
      else (HRes.ok, w2)

/-- Embedding of `handlePasv`: require auth, send `PASV`, require a
success response, decode with `parseAddr`, and only on success store the
decoded address in the session. -/
def handlePasv (args : List (List Char)) (w : World) : HRes × World :=
  match requireAuth w.conn with
  | some e => (HRes.errRes e, w)
  | none =>
    match sendCommand (("PASV").data) w with
    | (none, w2) => (HRes.errRes CmdErr.transport, w2)
    | (some resp, w2) =>
      if ¬ isSuccessResponse resp then (HRes.errRes (CmdErr.statusErr resp), w2)
      else
        match parseAddr resp with
        | none => (HRes.errRes CmdErr.parseErr, w2)
        | some addr =>
          (HRes.ok, { w2 with conn := { w2.conn with dataAddr := addr } })

/-- Embedding of `handleEpsv`, analogous to `handlePasv` with the extended
decoder (whose pathological slice case surfaces as a panic). -/
def handleEpsv (args : List (List Char)) (w : World) : HRes × World :=
  match requireAuth w.conn with
  | some e => (HRes.errRes e, w)
  | none =>
    match sendCommand (("EPSV").data) w with
    | (none, w2) => (HRes.errRes CmdErr.transport, w2)
    | (some resp, w2) =>
      if ¬ isSuccessResponse resp then (HRes.errRes (CmdErr.statusErr resp), w2)
      else
        match parseEPSVAddr w2.conn.remoteHost resp with
        | Except.error _ => (HRes.panicked, w2)
        | Except.ok none => (HRes.errRes CmdErr.parseErr, w2)
        | Except.ok (some addr) =>
          (HRes.ok, { w2 with conn := { w2.conn with dataAddr := addr } })

/-- The closing-status block that `handleList`, `handleStor` and
`handleRetr` each contain verbatim after the data connection is closed:
read exactly one more response; `226` is success, `426` prints a warning
and still returns `nil`, anything else is an error return. -/
def transferFinish (w2 : World) : HRes × World :=
  match readResponse w2.stream with
  | none => (HRes.errRes CmdErr.transport, w2)
  | some (resp2, rest) =>
    let w3 : World := { w2 with stream := rest }
    if ¬ (("226").data.isPrefixOf resp2) then
      if ("426").data.isPrefixOf resp2 then
        (HRes.ok, { w3 with warns := w3.warns ++ [Warn.closeWarn] })
      else (HRes.errRes (CmdErr.transferFailed resp2), w3)
    else (HRes.ok, w3)

/-- Embedding of `handleList`: auth and data-address preconditions, `LIST`
with the optional path argument, require `150`, run the data connection,
then read exactly one closing response: `226` is success, `426` a printed
warning that still returns `nil`, anything else an error. -/
def handleList (args : List (List Char)) (env : Env) (w : World) : HRes × World :=
  match requireAuth w.conn with
  | some e => (HRes.errRes e, w)
  | none =>
    if w.conn.dataAddr = [] then (HRes.errRes CmdErr.noDataAddr, w)
    else
      let listCmd :=
        match args with
        | [] => ("LIST").data
        | a :: _ => ("LIST ").data ++ a
      match sendCommand listCmd w with
      | (none, w2) => (HRes.errRes CmdErr.transport, w2)
      | (some resp, w2) =>
        if ¬ (("150").data.isPrefixOf resp) then (HRes.errRes (CmdErr.statusErr resp), w2)
        else if ¬ env.dialOk then (HRes.errRes CmdErr.dialErr, w2)
        else if ¬ env.copyOk then (HRes.errRes CmdErr.copyErr, w2)
        else transferFinish w2

/-- Embedding of `handleStor`: argument, auth and data-address checks,
then the local file is opened before any command is sent; `STOR`, require
`150`, dial, copy, and the same closing-response trichotomy as `LIST`. -/
def handleStor (args : List (List Char)) (env : Env) (w : World) : HRes × World :=
  match args with
  | [] => (HRes.errRes CmdErr.missingArg, w)
  | filename :: _ =>
    match requireAuth w.conn with
    | some e => (HRes.errRes e, w)
    | none =>
      if w.conn.dataAddr = [] then (HRes.errRes CmdErr.noDataAddr, w)
      else if ¬ env.fileOk then (HRes.errRes CmdErr.localFileErr, w)
      else
        match sendCommand (("STOR ").data ++ filename) w with
        | (none, w2) => (HRes.errRes CmdErr.transport, w2)
        | (some resp, w2) =>
          if ¬ (("150").data.isPrefixOf resp) then (HRes.errRes (CmdErr.statusErr resp), w2)
          else if ¬ env.dialOk then (HRes.errRes CmdErr.dialErr, w2)
          else if ¬ env.copyOk then (HRes.errRes CmdErr.copyErr, w2)
          else transferFinish w2

/-- Embedding of `getFileSize`: `SIZE`, then a `213`-prefixed response
with at least two whitespace-separated fields parses its second field as
the size; anything else is an error. -/
def getFileSize (filename : List Char) (w : World) : Except CmdErr Int × World :=
  match sendCommand (("SIZE ").data ++ filename) w with
  | (none, w2) => (Except.error CmdErr.transport, w2)
  | (some resp, w2) =>
    if ("213").data.isPrefixOf resp then
      if 2 ≤ (goFields resp).length then
        match atoi ((goFields resp).getD 1 []) with
        | none => (Except.error CmdErr.sizeErr, w2)
        | some v => (Except.ok v, w2)
      else (Except.error CmdErr.sizeErr, w2)
    else (Except.error CmdErr.sizeErr, w2)

/-- Embedding of `handleSize`: argument, auth and data-address checks,
`SIZE`, success iff the response starts with `213`. -/
def handleSize (args : List (List Char)) (w : World) : HRes × World :=
  match args with
  | [] => (HRes.errRes CmdErr.missingArg, w)
  | f :: _ =>
    match requireAuth w.conn with
    | some e => (HRes.errRes e, w)
    | none =>
      if w.conn.dataAddr = [] then (HRes.errRes CmdErr.noDataAddr, w)
      else
        match sendCommand (("SIZE ").data ++ f) w with
        | (none, w2) => (HRes.errRes CmdErr.transport, w2)
        | (some resp, w2) =>
          if ("213").data.isPrefixOf resp then (HRes.ok, w2)
          else (HRes.errRes (CmdErr.statusErr resp), w2)

/-- Embedding of `handleRetr`: argument, auth and data-address checks; a
failed size lookup only prints a warning and proceeds with a zero total;
`RETR`, require `150`, dial, create the local file, copy, then read
exactly one closing response with the `226`/`426`/other trichotomy. -/
def handleRetr (args : List (List Char)) (env : Env) (w : World) : HRes × World :=
  match args with
  | [] => (HRes.errRes CmdErr.missingArg, w)
  | filename :: _ =>
    match requireAuth w.conn with
    | some e => (HRes.errRes e, w)
    | none =>
      if w.conn.dataAddr = [] then (HRes.errRes CmdErr.noDataAddr, w)
      else
        let w1 :=
          match getFileSize filename w with
          | (Except.error _, wa) => { wa with warns := wa.warns ++ [Warn.sizeWarn] }
          | (Except.ok _, wa) => wa
        match sendCommand (("RETR ").data ++ filename) w1 with
        | (none, w2) => (HRes.errRes CmdErr.transport, w2)
        | (some resp, w2) =>
          if ¬ (("150").data.isPrefixOf resp) then (HRes.errRes (CmdErr.statusErr resp), w2)
          else if ¬ env.dialOk then (HRes.errRes CmdErr.dialErr, w2)
          else if ¬ env.fileOk then (HRes.errRes CmdErr.localFileErr, w2)
          else if ¬ env.copyOk then (HRes.errRes CmdErr.copyErr, w2)
          else transferFinish w2

/-- Embedding of `handleStat`: sends `STAT` without any authentication
check, success iff the response is in the success class. -/
def handleStat (args : List (List Char)) (w : World) : HRes × World :=
  match sendCommand (("STAT").data) w with
  | (none, w2) => (HRes.errRes CmdErr.transport, w2)
  | (some resp, w2) =>
    if ¬ isSuccessResponse resp then (HRes.errRes (CmdErr.statusErr resp), w2)
    else (HRes.ok, w2)

/-- Embedding of `handleCdup`. -/
def handleCdup (args : List (List Char)) (w : World) : HRes × World :=
  match requireAuth w.conn with
  | some e => (HRes.errRes e, w)
  | none =>
    match sendCommand (("CDUP").data) w with
    | (none, w2) => (HRes.errRes CmdErr.transport, w2)
    | (some resp, w2) =>
      if ¬ isSuccessResponse resp then (HRes.errRes (CmdErr.statusErr resp), w2)
      else (HRes.ok, w2)

/-- Embedding of `handleCWD`: auth check first, then the argument check. -/
def handleCWD (args : List (List Char)) (w : World) : HRes × World :=
  match requireAuth w.conn with
  | some e => (HRes.errRes e, w)
  | none =>
    match args with
    | [] => (HRes.errRes CmdErr.missingArg, w)
    | d :: _ =>
      match sendCommand (("CWD ").data ++ d) w with
      | (none, w2) => (HRes.errRes CmdErr.transport, w2)
      | (some resp, w2) =>
        if ¬ isSuccessResponse resp then (HRes.errRes (CmdErr.statusErr resp), w2)
        else (HRes.ok, w2)

/-- Embedding of `handleHelp` (the `serverhelp` command): sends `HELP`
with no authentication check. -/
def handleHelp (args : List (List Char)) (w : World) : HRes × World :=
  match sendCommand (("HELP").data) w with
  | (none, w2) => (HRes.errRes CmdErr.transport, w2)
  | (some resp, w2) =>
    if ¬ isSuccessResponse resp then (HRes.errRes (CmdErr.statusErr resp), w2)
    else (HRes.ok, w2)

/-- Embedding of `handleExit`: `stopKeepAlive` is deferred, so it runs on
the error returns but not on the success path, which calls `os.Exit`
without running deferred calls; `QUIT` is sent with no auth check. -/
def handleExit (args : List (List Char)) (w : World) : HRes × World :=
  match sendCommand (("QUIT").data) w with
  | (none, w2) =>
    match stopKeepAlive w2.conn with
    | Except.error _ => (HRes.panicked, w2)
    | Except.ok c2 => (HRes.errRes CmdErr.transport, { w2 with conn := c2 })
  | (some resp, w2) =>
    if ¬ isSuccessResponse resp then
      match stopKeepAlive w2.conn with
      | Except.error _ => (HRes.panicked, w2)
      | Except.ok c2 => (HRes.errRes (CmdErr.statusErr resp), { w2 with conn := c2 })
    else (HRes.ok, { w2 with exited := true })

/-- Classification of the printed percentage value under IEEE-754
`float64` semantics: a zero denominator yields `+Inf` for a positive
numerator, `-Inf` for a negative one and `NaN` for `0/0`; a nonzero
denominator always yields a finite value here. -/
inductive PctClass
  | finite
  | posInf
  | negInf
  | nan
deriving DecidableEq, Repr

/-- The percentage class printed for a cumulative count `read` out of
`total` by `float64(read) / float64(total) * 100`. -/
def pctClass (read total : Int) : PctClass :=
  if total ≠ 0 then PctClass.finite
  else if 0 < read then PctClass.posInf
  else if read < 0 then PctClass.negInf
  else PctClass.nan

/-- The two counters of the Go `ProgressReader` struct. -/
structure ProgressReader where
  total : Int
  read : Int
deriving DecidableEq, Repr

/-- One printed progress line: the byte count, the total, and the
percentage clause the fixed format string always includes (`some`
because `Read` prints it unconditionally). -/
structure ProgressMsg where
  bytes : Int
  total : Int
  pct : Option PctClass
deriving DecidableEq, Repr

/-- Result of one `ProgressReader.Read` call: the updated reader, the
progress line it printed, and the `(n, err)` pair it passes through from
the inner reader. -/
structure ReadResult where
  pr : ProgressReader
  msg : ProgressMsg
  n : Nat
  errFlag : Bool
deriving DecidableEq, Repr

/-- Embedding of `ProgressReader.Read`: the inner read returned `n` bytes
and error flag `errFlag`; the cumulative count is bumped, one progress
line is printed (always including the percentage clause), and `(n, err)`
is returned unchanged. -/
def progressRead (pr : ProgressReader) (n : Nat) (errFlag : Bool) : ReadResult :=
  let read2 : Int := pr.read + (n : Int)
  { pr := { pr with read := read2 }
    msg := { bytes := read2, total := pr.total, pct := some (pctClass read2 pr.total) }
    n := n
    errFlag := errFlag }

/-- The events the keep-alive goroutine's `select` can wake on. -/
inductive KAEvent
  | tick
  | stopSignal
deriving DecidableEq, Repr

/-- Transport-error conditions named by the specification's keep-alive
classification; the Go loop never inspects them. -/
inductive NetErr
  | eofErr | timeoutErr | resetErr | brokenPipeErr | refusedErr
  | unreachableErr | otherErr
deriving DecidableEq, Repr

/-- Which errors the specification calls clearly fatal. -/
def isClearlyFatal : NetErr → Bool
  | NetErr.otherErr => false
  | _ => true

/-- Whether the goroutine keeps looping after the iteration. -/
inductive KAOutcome
  | running
  | stopped
deriving DecidableEq, Repr

/-- Outcome of one keep-alive iteration: whether the loop survives and
whether an error was reported (printed). -/
structure KAStep where
  outcome : KAOutcome
  reported : Bool
deriving DecidableEq, Repr

/-- Embedding of one iteration of the goroutine body in `startKeepAlive`:
a stop signal ends the loop; a tick while authenticated sends `NOOP`
through `sendCommand`, and any error from it — of any kind — prints the
failure and returns from the goroutine. -/
def keepAliveIter (isAuth : Bool) (ev : KAEvent) (probe : Except NetErr (List Char)) : KAStep :=
  match ev with
  | KAEvent.stopSignal => { outcome := KAOutcome.stopped, reported := false }
  | KAEvent.tick =>
    if isAuth then
      match probe with
      | Except.error _ => { outcome := KAOutcome.stopped, reported := true }
      | Except.ok _ => { outcome := KAOutcome.running, reported := false }
    else { outcome := KAOutcome.running, reported := false }

/-- Statement vocabulary: the interior of a passive-mode response's
parenthesized group holding six decimal numbers. -/
def sixNums (h1 h2 h3 h4 p1 p2 : Nat) : List Char :=
  natDigits h1 ++ (',' :: (natDigits h2 ++ (',' :: (natDigits h3 ++ (',' ::
    (natDigits h4 ++ (',' :: (natDigits p1 ++ (',' :: natDigits p2)))))))))

/-- Statement vocabulary: the `"h1.h2.h3.h4:port"` string the claim says
the decoder returns. -/
def addrRender (h1 h2 h3 h4 port : Nat) : List Char :=
  natDigits h1 ++ ('.' :: (natDigits h2 ++ ('.' :: (natDigits h3 ++ ('.' ::
    (natDigits h4 ++ (':' :: natDigits port)))))))

/-- Statement vocabulary: a concrete session fixture for witnesses and
counterexamples. -/
def mkConn (auth : Bool) (da : List Char) : FTPConnection :=
  { user := ("anonymous").data
    pass := ("guest").data
    isAuthenticated := auth
    dataAddr := da
    keepaliveStop := ChanSt.unset
    remoteHost := ("10.0.0.1").data }

/-- Statement vocabulary: a concrete world fixture around `mkConn`. -/
def mkWorld (auth : Bool) (da : List Char) (stream : List (List Char)) : World :=
  { conn := mkConn auth da
    stream := stream
    sent := []
    warns := []
    exited := false }

/-! ### Decimal rendering and parsing lemmas -/

theorem natDigitsAux_append : ∀ (fuel n : Nat) (acc : List Char), n < fuel →
    natDigitsAux fuel n acc = natDigitsAux fuel n [] ++ acc := by
  intro fuel
  induction fuel with
  | zero => intro n acc h; exact absurd h (Nat.not_lt_zero n)
  | succ f ih =>
    intro n acc h
    by_cases h10 : n < 10
    · simp [natDigitsAux, h10]
    · have hdiv : n / 10 < f := by omega
      simp only [natDigitsAux, if_neg h10]
      rw [ih (n / 10) _ hdiv, ih (n / 10) (digitChar (n % 10) :: []) hdiv]
      simp

theorem natDigitsAux_fuel : ∀ (f1 f2 n : Nat) (acc : List Char), n < f1 → n < f2 →
    natDigitsAux f1 n acc = natDigitsAux f2 n acc := by
  intro f1
  induction f1 with
  | zero => intro f2 n acc h1 _; exact absurd h1 (Nat.not_lt_zero n)
  | succ f ih =>
    intro f2 n acc h1 h2
    cases f2 with
    | zero => exact absurd h2 (Nat.not_lt_zero n)
    | succ g =>
      by_cases h10 : n < 10
      · simp [natDigitsAux, h10]
      · simp only [natDigitsAux, if_neg h10]
        exact ih g (n / 10) _ (by omega) (by omega)

theorem natDigits_of_lt (n : Nat) (h : n < 10) : natDigits n = [digitChar n] := by
  simp [natDigits, natDigitsAux, h]

theorem natDigits_of_ge (n : Nat) (h : 10 ≤ n) :
    natDigits n = natDigits (n / 10) ++ [digitChar (n % 10)] := by
  have hdiv : n / 10 < n := by omega
  have h1 : natDigits n = natDigitsAux n (n / 10) (digitChar (n % 10) :: []) := by
    simp only [natDigits, natDigitsAux, if_neg (by omega : ¬ n < 10)]
  rw [h1, natDigitsAux_append n (n / 10) _ hdiv,
    natDigitsAux_fuel n (n / 10 + 1) (n / 10) [] hdiv (Nat.lt_succ_self _)]
  rfl

theorem digitVal_digitChar (n : Nat) (h : n < 10) : digitVal (digitChar n) = n := by
  interval_cases n <;> decide

theorem isDigitChar_digitChar (n : Nat) (h : n < 10) : isDigitChar (digitChar n) = true := by
  interval_cases n <;> decide

theorem mem_natDigits (n : Nat) : ∀ c ∈ natDigits n, isDigitChar c = true := by
  induction n using Nat.strong_induction_on with
  | _ n ih =>
    intro c hc
    by_cases h10 : n < 10
    · rw [natDigits_of_lt n h10] at hc
      simp only [List.mem_singleton] at hc
      exact hc ▸ isDigitChar_digitChar n h10
    · rw [natDigits_of_ge n (by omega)] at hc
      rcases List.mem_append.mp hc with hm | hm
      · exact ih (n / 10) (by omega) c hm
      · simp only [List.mem_singleton] at hm
        exact hm ▸ isDigitChar_digitChar (n % 10) (Nat.mod_lt n (by omega))

theorem natDigits_ne_nil (n : Nat) : natDigits n ≠ [] := by
  by_cases h10 : n < 10
  · rw [natDigits_of_lt n h10]; simp
  · rw [natDigits_of_ge n (by omega)]; simp

theorem not_mem_natDigits (n : Nat) (c : Char) (hc : isDigitChar c = false) :
    c ∉ natDigits n := by
  intro hm
  rw [mem_natDigits n c hm] at hc
  exact Bool.noConfusion hc

theorem digitsToNat_append_singleton (l : List Char) (c : Char) :
    digitsToNat (l ++ [c]) = digitsToNat l * 10 + digitVal c := by
  simp [digitsToNat, List.foldl_append]

theorem digitsToNat_natDigits (n : Nat) : digitsToNat (natDigits n) = n := by
  induction n using Nat.strong_induction_on with
  | _ n ih =>
    by_cases h10 : n < 10
    · rw [natDigits_of_lt n h10]
      simp [digitsToNat, digitVal_digitChar n h10]
    · rw [natDigits_of_ge n (by omega), digitsToNat_append_singleton,
        ih (n / 10) (by omega), digitVal_digitChar (n % 10) (Nat.mod_lt n (by omega))]
      omega

theorem atoi_natDigits (n : Nat) (h : n < 2 ^ 63) : atoi (natDigits n) = some ((n : Int)) := by
  rcases hnd : natDigits n with _ | ⟨c, rest⟩
  · exact absurd hnd (natDigits_ne_nil n)
  · have hdig : isDigitChar c = true := by
      apply mem_natDigits n c
      rw [hnd]; exact List.mem_cons_self c rest
    have hcminus : ¬ c = '-' := fun h1 => absurd (h1 ▸ hdig) (by decide)
    have hcplus : ¬ c = '+' := fun h1 => absurd (h1 ▸ hdig) (by decide)
    have hcm : ¬ (c = '-' ∨ c = '+') := by simp [hcminus, hcplus]
    have hallb : (c :: rest).all isDigitChar = true := by
      rw [← hnd]
      exact List.all_eq_true.mpr (mem_natDigits n)
    have hv : digitsToNat (c :: rest) = n := by rw [← hnd]; exact digitsToNat_natDigits n
    simp only [atoi, if_neg hcm, if_neg (List.cons_ne_nil c rest), hallb, if_true, hv,
      if_neg hcminus, if_pos h]

/-! ### Cut, split and prefix lemmas -/

theorem cutChar_append (sep : Char) : ∀ (pre suf : List Char), sep ∉ pre →
    cutChar sep (pre ++ sep :: suf) = some (pre, suf) := by
  intro pre
  induction pre with
  | nil => intro suf _; simp [cutChar]
  | cons c cs ih =>
    intro suf h
    have hc : ¬ c = sep := fun he => h (he ▸ List.mem_cons_self c cs)
    have hcs : sep ∉ cs := fun hm => h (List.mem_cons_of_mem c hm)
    simp [cutChar, hc, ih suf hcs]

theorem cutChar_eq_none (sep : Char) : ∀ s : List Char, sep ∉ s → cutChar sep s = none := by
  intro s
  induction s with
  | nil => intro _; rfl
  | cons c cs ih =>
    intro h
    have hc : ¬ c = sep := fun he => h (he ▸ List.mem_cons_self c cs)
    have hcs : sep ∉ cs := fun hm => h (List.mem_cons_of_mem c hm)
    simp [cutChar, hc, ih hcs]

theorem splitOnChar_append (sep : Char) : ∀ (f rest : List Char), sep ∉ f →
    splitOnChar sep (f ++ sep :: rest) = f :: splitOnChar sep rest := by
  intro f
  induction f with
  | nil => intro rest _; simp [splitOnChar]
  | cons c cs ih =>
    intro rest h
    have hc : ¬ c = sep := fun he => h (he ▸ List.mem_cons_self c cs)
    have hcs : sep ∉ cs := fun hm => h (List.mem_cons_of_mem c hm)
    simp [splitOnChar, hc, ih rest hcs]

theorem splitOnChar_no_sep (sep : Char) : ∀ f : List Char, sep ∉ f →
    splitOnChar sep f = [f] := by
  intro f
  induction f with
  | nil => intro _; rfl
  | cons c cs ih =>
    intro h
    have hc : ¬ c = sep := fun he => h (he ▸ List.mem_cons_self c cs)
    have hcs : sep ∉ cs := fun hm => h (List.mem_cons_of_mem c hm)
    simp [splitOnChar, hc, ih hcs]

theorem isPrefixOf3_iff (a b c : Char) (r : List Char) :
    (([a, b, c] : List Char).isPrefixOf r = true) ↔ ∃ t, r = a :: b :: c :: t := by
  rcases r with _ | ⟨x, _ | ⟨y, _ | ⟨z, t⟩⟩⟩ <;> simp [List.isPrefixOf]
  constructor <;> rintro ⟨h1, h2, h3⟩ <;> exact ⟨h1.symm, h2.symm, h3.symm⟩

theorem prefix3_exclusive (a b c d e f : Char) (r : List Char) (hne : a ≠ d)
    (h : (([a, b, c] : List Char).isPrefixOf r) = true) :
    (([d, e, f] : List Char).isPrefixOf r) = false := by
  rcases (isPrefixOf3_iff a b c r).mp h with ⟨t, rfl⟩
  simp [List.isPrefixOf]
  intro h1
  exact absurd h1.symm hne


/-! ### Claim C1: legacy passive-address decoding -/

theorem notMem_sixNums (h1 h2 h3 h4 p1 p2 : Nat) (c : Char)
    (hc : isDigitChar c = false) (hcomma : ¬ c = ',') :
    c ∉ sixNums h1 h2 h3 h4 p1 p2 := by
  have hnd : ∀ n : Nat, c ∈ natDigits n ↔ False :=
    fun n => iff_false_intro (not_mem_natDigits n c hc)
  simp [sixNums, hnd, hcomma]

theorem splitOnChar_sixNums (h1 h2 h3 h4 p1 p2 : Nat) :
    splitOnChar ',' (sixNums h1 h2 h3 h4 p1 p2) =
      [natDigits h1, natDigits h2, natDigits h3, natDigits h4,
       natDigits p1, natDigits p2] := by
  have hnm : ∀ n : Nat, ',' ∉ natDigits n :=
    fun n => not_mem_natDigits n ',' (by decide)
  simp only [sixNums]
  rw [splitOnChar_append ',' _ _ (hnm h1), splitOnChar_append ',' _ _ (hnm h2),
    splitOnChar_append ',' _ _ (hnm h3), splitOnChar_append ',' _ _ (hnm h4),
    splitOnChar_append ',' _ _ (hnm p1), splitOnChar_no_sep ',' _ (hnm p2)]

theorem validOctet_natDigits (n : Nat) (h : n ≤ 255) :
    validOctet (natDigits n) = true := by
  unfold validOctet
  rw [atoi_natDigits n (by omega)]
  simp
  omega

theorem intRepr_port (p1 p2 : Nat) :
    intRepr ((p1 : Int) * 256 + (p2 : Int)) = natDigits (p1 * 256 + p2) := by
  have h : ((p1 : Int) * 256 + (p2 : Int)) = (((p1 * 256 + p2 : Nat)) : Int) := by
    push_cast
    ring
  rw [h]
  rfl

/-- Claim C1, amended.  Positive direction: any line whose first
parenthesized group is a comma-separated list of six decimal numbers with
the first four in `[0,255]` (here all six, as the claim assumes) decodes
to `"h1.h2.h3.h4:port"` with `port = p1*256 + p2`.  Negative direction: a
missing parenthesis, a comma-field count other than six, a non-numeric
field, or one of the FIRST FOUR values out of range yields a format
error.  (The two port halves are not range-checked by the code; see the
counterexample.) -/
theorem c1_parseAddr_contract :
    (∀ h1 h2 h3 h4 p1 p2 : Nat, ∀ pre post : List Char,
      h1 ≤ 255 → h2 ≤ 255 → h3 ≤ 255 → h4 ≤ 255 → p1 ≤ 255 → p2 ≤ 255 →
      '(' ∉ pre →
      parseAddr (pre ++ ('(' :: (sixNums h1 h2 h3 h4 p1 p2 ++ (')' :: post)))) =
        some (addrRender h1 h2 h3 h4 (p1 * 256 + p2))) ∧
    (∀ s : List Char, '(' ∉ s → parseAddr s = none) ∧
    (∀ pre s : List Char, '(' ∉ pre → ')' ∉ s →
      parseAddr (pre ++ ('(' :: s)) = none) ∧
    (∀ pre inner post : List Char, '(' ∉ pre → ')' ∉ inner →
      ((splitOnChar ',' inner).length ≠ 6 ∨
        ¬ (((splitOnChar ',' inner).take 4).all validOctet = true) ∨
        atoi ((splitOnChar ',' inner).getD 4 []) = none ∨
        atoi ((splitOnChar ',' inner).getD 5 []) = none) →
      parseAddr (pre ++ ('(' :: (inner ++ (')' :: post)))) = none) := by
  refine ⟨?_, ?_, ?_, ?_⟩
  · intro h1 h2 h3 h4 p1 p2 pre post hb1 hb2 hb3 hb4 hb5 hb6 hpre
    have hinner : ')' ∉ sixNums h1 h2 h3 h4 p1 p2 :=
      notMem_sixNums h1 h2 h3 h4 p1 p2 ')' (by decide) (by decide)
    unfold parseAddr
    rw [cutChar_append '(' pre _ hpre]
    simp only
    rw [cutChar_append ')' _ post hinner]
    simp only [splitOnChar_sixNums]
    simp only [List.length_cons, List.length_nil, List.take, List.all_cons, List.all_nil,
      List.getD_cons_succ, List.getD_cons_zero,
      validOctet_natDigits h1 hb1, validOctet_natDigits h2 hb2,
      validOctet_natDigits h3 hb3, validOctet_natDigits h4 hb4,
      atoi_natDigits p1 (by omega), atoi_natDigits p2 (by omega)]
    simp [joinSep, intRepr_port p1 p2, addrRender]
  · intro s hs
    unfold parseAddr
    rw [cutChar_eq_none '(' s hs]
  · intro pre s hpre hs
    unfold parseAddr
    rw [cutChar_append '(' pre s hpre]
    simp only
    rw [cutChar_eq_none ')' s hs]
  · intro pre inner post hpre hinner hbad
    unfold parseAddr
    rw [cutChar_append '(' pre _ hpre]
    simp only
    rw [cutChar_append ')' inner post hinner]
    simp only
    rcases hbad with h | h | h | h
    · simp [if_pos h]
    · by_cases hlen : (splitOnChar ',' inner).length ≠ 6
      · simp [if_pos hlen]
      · simp only [if_neg hlen]
        rw [if_neg]
        exact fun hco => h hco
    · by_cases hlen : (splitOnChar ',' inner).length ≠ 6
      · simp [if_pos hlen]
      · simp only [if_neg hlen]
        by_cases hoct : ((splitOnChar ',' inner).take 4).all validOctet = true
        · simp only [if_pos hoct]
          rw [h]
        · rw [if_neg hoct]
    · by_cases hlen : (splitOnChar ',' inner).length ≠ 6
      · simp [if_pos hlen]
      · simp only [if_neg hlen]
        by_cases hoct : ((splitOnChar ',' inner).take 4).all validOctet = true
        · simp only [if_pos hoct]
          cases hp4 : atoi ((splitOnChar ',' inner).getD 4 []) with
          | none => rfl
          | some v =>
            simp only
            rw [h]
        · rw [if_neg hoct]

/-- Claim C1, counterexample to the original wording: the fifth value 256
lies outside `[0,255]`, yet decoding does not return a format error — it
returns the address `"1.2.3.4:65536"` (a port no 16-bit transport has),
because `parseAddr` only range-checks the first four values. -/
theorem c1_parseAddr_counterexample :
    parseAddr (("227 Entering Passive Mode (1,2,3,4,256,0)").data) =
      some (("1.2.3.4:65536").data) := by decide

/-- Claim C1, witness: the contract applied at the spec's own example
`227 Entering Passive Mode (127,0,0,1,200,50)`. -/
theorem c1_parseAddr_contract_witness :
    parseAddr (("227 Entering Passive Mode (127,0,0,1,200,50)\r\n").data) =
      some (("127.0.0.1:51250").data) := by
  have h := c1_parseAddr_contract.1 127 0 0 1 200 50
    (("227 Entering Passive Mode ").data) (("\r\n").data)
    (by decide) (by decide) (by decide) (by decide) (by decide) (by decide) (by decide)
  have heq : (("227 Entering Passive Mode ").data ++
      ('(' :: (sixNums 127 0 0 1 200 50 ++ (')' :: ("\r\n").data)))) =
      (("227 Entering Passive Mode (127,0,0,1,200,50)\r\n").data) := by decide
  have hout : addrRender 127 0 0 1 (200 * 256 + 50) = (("127.0.0.1:51250").data) := by decide
  rw [heq, hout] at h
  exact h

/-! ### Claim C2: response assembly -/

theorem readMulti_closes (code : List Char) :
    ∀ (middles : List (List Char)) (closer : List Char) (after : List (List Char)),
      (∀ m ∈ middles, isCloseLine code m = false) →
      isCloseLine code closer = true →
      readMulti code (middles ++ closer :: after) = some (middles.flatten ++ closer, after) := by
  intro middles
  induction middles with
  | nil =>
    intro closer after _ hcl
    simp [readMulti, hcl]
  | cons m ms ih =>
    intro closer after hmid hcl
    have hm : isCloseLine code m = false := hmid m (List.mem_cons_self m ms)
    have hms : ∀ x ∈ ms, isCloseLine code x = false :=
      fun x hx => hmid x (List.mem_cons_of_mem m hx)
    simp [readMulti, hm, ih closer after hms hcl, List.append_assoc]

/-- Claim C2.  First conjunct: a first line whose fourth character is not
a hyphen (or that is shorter than four characters) ends the response at
exactly that line.  Second conjunct: when the first line opens a
multi-line block, the reader consumes lines up to exactly the first line
that repeats the three-character code followed by a space, and returns
all consumed lines concatenated in arrival order.  Third and fourth
conjuncts: a line with a different leading code, or one that repeats the
code but continues with a hyphen, never satisfies the closing
condition. -/
theorem c2_readResponse_contract :
    (∀ (line : List Char) (rest : List (List Char)), isMultiStart line = false →
      readResponse (line :: rest) = some (line, rest)) ∧
    (∀ (first : List Char) (middles : List (List Char)) (closer : List Char)
        (after : List (List Char)),
      isMultiStart first = true →
      (∀ m ∈ middles, isCloseLine (first.take 3) m = false) →
      isCloseLine (first.take 3) closer = true →
      readResponse (first :: (middles ++ closer :: after)) =
        some (first ++ (middles.flatten ++ closer), after)) ∧
    (∀ code line : List Char, line.take 3 ≠ code → isCloseLine code line = false) ∧
    (∀ code rest : List Char, code.length = 3 →
      isCloseLine code (code ++ '-' :: rest) = false) := by
  refine ⟨?_, ?_, ?_, ?_⟩
  · intro line rest h
    simp [readResponse, h]
  · intro first middles closer after hms hmid hcl
    simp [readResponse, hms, readMulti_closes (first.take 3) middles closer after hmid hcl]
  · intro code line h
    simp [isCloseLine, h]
  · intro code rest hlen
    have hget : (code ++ '-' :: rest).getD 3 ' ' = '-' := by
      rw [List.getD_append_right code ('-' :: rest) ' ' 3 (by omega)]
      simp [hlen]
    rw [List.getD_eq_getElem?_getD] at hget
    simp [isCloseLine, hget]

/-- Claim C2, witness: a multi-line `227` block containing a decoy line
that repeats the code with a hyphen and an unrelated-code line; the
reader stops only at `227 Done`, leaving the next response unread. -/
theorem c2_readResponse_contract_witness :
    readResponse [("227-Start\n").data, ("227-decoy\n").data, ("100 other\n").data,
        ("227 Done\n").data, ("500 next\n").data] =
      some (("227-Start\n227-decoy\n100 other\n227 Done\n").data, [("500 next\n").data]) := by
  have h := c2_readResponse_contract.2.1 (("227-Start\n").data)
    [("227-decoy\n").data, ("100 other\n").data] (("227 Done\n").data)
    [("500 next\n").data] (by decide) (by decide) (by decide)
  simpa using h

/-! ### Frame lemmas for the control-channel exchange -/

theorem sendCommand_of_none (cmd : List Char) (w : World)
    (h : readResponse w.stream = none) :
    sendCommand cmd w = (none, { w with sent := w.sent ++ [cmd] }) := by
  unfold sendCommand
  simp [h]

theorem sendCommand_of_some (cmd : List Char) (w : World) (r : List Char)
    (s : List (List Char)) (h : readResponse w.stream = some (r, s)) :
    sendCommand cmd w = (some r, { w with sent := w.sent ++ [cmd], stream := s }) := by
  unfold sendCommand
  simp [h]

theorem sendCommand_conn (cmd : List Char) (w : World) :
    ((sendCommand cmd w).2).conn = w.conn := by
  cases h : readResponse w.stream with
  | none => rw [sendCommand_of_none cmd w h]
  | some p => rw [sendCommand_of_some cmd w p.1 p.2 (by rw [h])]

theorem sendCommand_sent (cmd : List Char) (w : World) :
    ((sendCommand cmd w).2).sent = w.sent ++ [cmd] := by
  cases h : readResponse w.stream with
  | none => rw [sendCommand_of_none cmd w h]
  | some p => rw [sendCommand_of_some cmd w p.1 p.2 (by rw [h])]

/-! ### Claim C4: authentication precondition -/

/-- Claim C4, amended.  First part: the handlers that do guard on
authentication — `pwd`, `pasv`, `epsv`, `cdup`, `cwd`, `list`, `retr`,
`stor`, `size` — fail immediately with the unauthenticated error and
leave the world untouched (in particular nothing is sent).  Second part:
`stat`, `serverhelp` and `quit` place their command line on the control
channel unconditionally, authenticated or not. -/
theorem c4_auth_precondition :
    (∀ (w : World) (env : Env) (args : List (List Char)) (f : List Char),
      w.conn.isAuthenticated = false →
      handlePWD args w = (HRes.errRes CmdErr.notAuthenticated, w) ∧
      handlePasv args w = (HRes.errRes CmdErr.notAuthenticated, w) ∧
      handleEpsv args w = (HRes.errRes CmdErr.notAuthenticated, w) ∧
      handleCdup args w = (HRes.errRes CmdErr.notAuthenticated, w) ∧
      handleCWD args w = (HRes.errRes CmdErr.notAuthenticated, w) ∧
      handleList args env w = (HRes.errRes CmdErr.notAuthenticated, w) ∧
      handleRetr (f :: args) env w = (HRes.errRes CmdErr.notAuthenticated, w) ∧
      handleStor (f :: args) env w = (HRes.errRes CmdErr.notAuthenticated, w) ∧
      handleSize (f :: args) w = (HRes.errRes CmdErr.notAuthenticated, w)) ∧
    (∀ (w : World) (args : List (List Char)),
      ((handleStat args w).2).sent = w.sent ++ [("STAT").data] ∧
      ((handleHelp args w).2).sent = w.sent ++ [("HELP").data] ∧
      ((handleExit args w).2).sent = w.sent ++ [("QUIT").data]) := by
  constructor
  · intro w env args f hauth
    refine ⟨?_, ?_, ?_, ?_, ?_, ?_, ?_, ?_, ?_⟩ <;>
      simp [handlePWD, handlePasv, handleEpsv, handleCdup, handleCWD, handleList,
        handleRetr, handleStor, handleSize, requireAuth, hauth]
  · intro w args
    refine ⟨?_, ?_, ?_⟩
    · unfold handleStat
      cases hrr : readResponse w.stream with
      | none => rw [sendCommand_of_none _ _ hrr]
      | some p =>
        rcases p with ⟨resp, s⟩
        rw [sendCommand_of_some _ _ resp s (by rw [hrr])]
        by_cases hsucc : isSuccessResponse resp = true
        · simp [hsucc]
        · simp [hsucc]
    · unfold handleHelp
      cases hrr : readResponse w.stream with
      | none => rw [sendCommand_of_none _ _ hrr]
      | some p =>
        rcases p with ⟨resp, s⟩
        rw [sendCommand_of_some _ _ resp s (by rw [hrr])]
        by_cases hsucc : isSuccessResponse resp = true
        · simp [hsucc]
        · simp [hsucc]
    · unfold handleExit
      cases hrr : readResponse w.stream with
      | none =>
        rw [sendCommand_of_none _ _ hrr]
        cases hst : stopKeepAlive w.conn with
        | error e => simp [hst]
        | ok c2 => simp [hst]
      | some p =>
        rcases p with ⟨resp, s⟩
        rw [sendCommand_of_some _ _ resp s (by rw [hrr])]
        by_cases hsucc : isSuccessResponse resp = true
        · simp [hsucc]
        · cases hst : stopKeepAlive w.conn with
          | error e => simp [hsucc, hst]
          | ok c2 => simp [hsucc, hst]

/-- Claim C4, counterexample to the original wording: `stat` is a control
command other than `auth` and the local help, yet on an unauthenticated
session it does not fail with an unauthenticated error — it puts `STAT`
on the wire and fails only because of the server's status. -/
theorem c4_auth_counterexample :
    (mkWorld false [] [("500 no\n").data]).conn.isAuthenticated = false ∧
    (handleStat [] (mkWorld false [] [("500 no\n").data])).2.sent = [("STAT").data] ∧
    (handleStat [] (mkWorld false [] [("500 no\n").data])).1 ≠
      HRes.errRes CmdErr.notAuthenticated := by decide

/-- Claim C4, witness: the guarded handlers applied to a concrete
unauthenticated session refuse immediately and send nothing, while
`stat` still sends its line. -/
theorem c4_auth_precondition_witness :
    handlePWD [] (mkWorld false [] []) =
      (HRes.errRes CmdErr.notAuthenticated, mkWorld false [] []) ∧
    handleRetr [("a.txt").data] (Env.mk true true true) (mkWorld false [] []) =
      (HRes.errRes CmdErr.notAuthenticated, mkWorld false [] []) ∧
    ((handleStat [] (mkWorld false [] [])).2).sent = [("STAT").data] :=
  ⟨(c4_auth_precondition.1 (mkWorld false [] []) (Env.mk true true true) []
      (("a.txt").data) (by decide)).1,
   (c4_auth_precondition.1 (mkWorld false [] []) (Env.mk true true true) []
      (("a.txt").data) (by decide)).2.2.2.2.2.2.1,
   (c4_auth_precondition.2 (mkWorld false [] []) []).1⟩

/-! ### Claim C5: authenticate contract and atomicity -/

/-- Claim C5.  Each conjunct covers one exchange outcome: a transport
failure on `USER`, a non-`331` answer to `USER`, a transport failure on
`PASS`, a non-success answer to `PASS` — in all four the handler returns
a failure, the session record (authentication flag, keep-alive channels,
stored address) is exactly what it was, and only the commands already on
the wire appear in the sent trace; and on `331` + success the flag is
set and the keep-alive loop is started. -/
theorem c5_authenticate_contract :
    (∀ (args : List (List Char)) (w : World),
      readResponse w.stream = none →
      handleAuthenticate args w = (HRes.errRes CmdErr.transport,
        { w with sent := w.sent ++ [("USER ").data ++ w.conn.user] })) ∧
    (∀ (args : List (List Char)) (w : World) (r1 : List Char) (s1 : List (List Char)),
      readResponse w.stream = some (r1, s1) →
      (("331").data.isPrefixOf r1) = false →
      handleAuthenticate args w = (HRes.errRes (CmdErr.statusErr r1),
        { w with sent := w.sent ++ [("USER ").data ++ w.conn.user], stream := s1 })) ∧
    (∀ (args : List (List Char)) (w : World) (r1 : List Char) (s1 : List (List Char)),
      readResponse w.stream = some (r1, s1) →
      (("331").data.isPrefixOf r1) = true →
      readResponse s1 = none →
      handleAuthenticate args w = (HRes.errRes CmdErr.transport,
        { w with sent := w.sent ++ [("USER ").data ++ w.conn.user,
                                    ("PASS ").data ++ w.conn.pass], stream := s1 })) ∧
    (∀ (args : List (List Char)) (w : World) (r1 r2 : List Char)
        (s1 s2 : List (List Char)),
      readResponse w.stream = some (r1, s1) →
      (("331").data.isPrefixOf r1) = true →
      readResponse s1 = some (r2, s2) →
      isSuccessResponse r2 = false →
      handleAuthenticate args w = (HRes.errRes (CmdErr.statusErr r2),
        { w with sent := w.sent ++ [("USER ").data ++ w.conn.user,
                                    ("PASS ").data ++ w.conn.pass], stream := s2 })) ∧
    (∀ (args : List (List Char)) (w : World) (r1 r2 : List Char)
        (s1 s2 : List (List Char)),
      readResponse w.stream = some (r1, s1) →
      (("331").data.isPrefixOf r1) = true →
      readResponse s1 = some (r2, s2) →
      isSuccessResponse r2 = true →
      handleAuthenticate args w = (HRes.ok,
        { w with sent := w.sent ++ [("USER ").data ++ w.conn.user,
                                    ("PASS ").data ++ w.conn.pass], stream := s2,
                 conn := { w.conn with isAuthenticated := true,
                                       keepaliveStop := ChanSt.opened } })) := by
  refine ⟨?_, ?_, ?_, ?_, ?_⟩
  · intro args w h1
    unfold handleAuthenticate
    rw [sendCommand_of_none _ _ h1]
  · intro args w r1 s1 h1 hpre
    unfold handleAuthenticate
    rw [sendCommand_of_some _ _ r1 s1 h1]
    simp [hpre]
  · intro args w r1 s1 h1 hpre h2
    unfold handleAuthenticate
    rw [sendCommand_of_some _ _ r1 s1 h1]
    simp only [hpre, Bool.not_true, if_neg (by simp : ¬ (true : Bool) = false)]
    rw [sendCommand_of_none _ _ (by simpa using h2)]
    simp
  · intro args w r1 r2 s1 s2 h1 hpre h2 hsucc
    unfold handleAuthenticate
    rw [sendCommand_of_some _ _ r1 s1 h1]
    simp only [hpre, Bool.not_true, if_neg (by simp : ¬ (true : Bool) = false)]
    rw [sendCommand_of_some _ _ r2 s2 (by simpa using h2)]
    simp [hsucc]
  · intro args w r1 r2 s1 s2 h1 hpre h2 hsucc
    unfold handleAuthenticate
    rw [sendCommand_of_some _ _ r1 s1 h1]
    simp only [hpre, Bool.not_true, if_neg (by simp : ¬ (true : Bool) = false)]
    rw [sendCommand_of_some _ _ r2 s2 (by simpa using h2)]
    simp [hsucc, startKeepAlive]

/-- Claim C5, witness: the spec's end-to-end scenario 1 — `331` then
`230` — authenticates, sets the flag and starts the keep-alive loop. -/
theorem c5_authenticate_contract_witness :
    handleAuthenticate []
        (mkWorld false [] [("331 Need password\n").data, ("230 Logged in\n").data]) =
      (HRes.ok,
        { conn := { user := ("anonymous").data, pass := ("guest").data,
                    isAuthenticated := true, dataAddr := [],
                    keepaliveStop := ChanSt.opened, remoteHost := ("10.0.0.1").data }
          stream := []
          sent := [("USER anonymous").data, ("PASS guest").data]
          warns := []
          exited := false }) := by
  have h := c5_authenticate_contract.2.2.2.2 []
    (mkWorld false [] [("331 Need password\n").data, ("230 Logged in\n").data])
    (("331 Need password\n").data) (("230 Logged in\n").data)
    [("230 Logged in\n").data] [] (by decide) (by decide) (by decide) (by decide)
  rw [h]
  decide

/-! ### Claim C8: passive negotiation frame condition -/

/-- Claim C8: whenever `pasv` or `epsv` fails — unauthenticated, transport
error, non-success status, or address-decode failure (including the
decoder's pathological panic case for `epsv`) — the session struct is
exactly what it was before the call: no address is stored and no other
field changes. -/
theorem c8_passive_frame :
    (∀ (args : List (List Char)) (w : World),
      (handlePasv args w).1 ≠ HRes.ok → ((handlePasv args w).2).conn = w.conn) ∧
    (∀ (args : List (List Char)) (w : World),
      (handleEpsv args w).1 ≠ HRes.ok → ((handleEpsv args w).2).conn = w.conn) := by
  constructor
  · intro args w
    unfold handlePasv requireAuth
    by_cases hauth : w.conn.isAuthenticated = true
    · simp only [hauth, if_true]
      cases hrr : readResponse w.stream with
      | none =>
        rw [sendCommand_of_none _ _ hrr]
        intro _
        rfl
      | some p =>
        rcases p with ⟨resp, s⟩
        rw [sendCommand_of_some _ _ resp s hrr]
        by_cases hsucc : isSuccessResponse resp = true
        · simp only [hsucc, Bool.not_true, Bool.false_eq_true, if_false]
          cases hpa : parseAddr resp with
          | none => intro _; rfl
          | some addr => intro hne; exact absurd rfl hne
        · simp only [Bool.not_eq_true] at hsucc
          simp only [hsucc, Bool.not_false, if_true]
          intro _
          rfl
    · simp only [Bool.not_eq_true] at hauth
      simp only [hauth, Bool.false_eq_true, if_false]
      intro _
      trivial
  · intro args w
    unfold handleEpsv requireAuth
    by_cases hauth : w.conn.isAuthenticated = true
    · simp only [hauth, if_true]
      cases hrr : readResponse w.stream with
      | none =>
        rw [sendCommand_of_none _ _ hrr]
        intro _
        rfl
      | some p =>
        rcases p with ⟨resp, s⟩
        rw [sendCommand_of_some _ _ resp s hrr]
        by_cases hsucc : isSuccessResponse resp = true
        · simp only [hsucc, Bool.not_true, Bool.false_eq_true, if_false]
          cases hep : parseEPSVAddr w.conn.remoteHost resp with
          | error e => intro _; rfl
          | ok o =>
            cases o with
            | none => intro _; rfl
            | some addr => intro hne; exact absurd rfl hne
        · simp only [Bool.not_eq_true] at hsucc
          simp only [hsucc, Bool.not_false, if_true]
          intro _
          rfl
    · simp only [Bool.not_eq_true] at hauth
      simp only [hauth, Bool.false_eq_true, if_false]
      intro _
      trivial

/-- Claim C8, witness: a `500` answer to `PASV` on a session that already
holds a data address leaves that address (and the whole session) in
place. -/
theorem c8_passive_frame_witness :
    (handlePasv [] (mkWorld true (("127.0.0.1:1039").data) [("500 no\n").data])).1 ≠
      HRes.ok ∧
    ((handlePasv [] (mkWorld true (("127.0.0.1:1039").data)
        [("500 no\n").data])).2).conn =
      (mkWorld true (("127.0.0.1:1039").data) [("500 no\n").data]).conn :=
  ⟨by decide,
   c8_passive_frame.1 [] (mkWorld true (("127.0.0.1:1039").data) [("500 no\n").data])
     (by decide)⟩

/-! ### Claim C3: transfer closing status -/

theorem transferFinish_cases (w2 : World) (resp2 : List Char) (rest : List (List Char))
    (h : readResponse w2.stream = some (resp2, rest)) :
    transferFinish w2 =
      (if ("226").data.isPrefixOf resp2 then (HRes.ok, { w2 with stream := rest })
       else if ("426").data.isPrefixOf resp2 then
         (HRes.ok, { w2 with stream := rest, warns := w2.warns ++ [Warn.closeWarn] })
       else (HRes.errRes (CmdErr.transferFailed resp2), { w2 with stream := rest })) := by
  unfold transferFinish
  rw [h]
  by_cases h226 : ("226").data.isPrefixOf resp2 = true
  · simp [h226]
  · simp only [Bool.not_eq_true] at h226
    by_cases h426 : ("426").data.isPrefixOf resp2 = true
    · simp [h226, h426]
    · simp only [Bool.not_eq_true] at h426
      simp [h226, h426]

theorem getFileSize_world (f : List Char) (w : World) (r : List Char)
    (s : List (List Char)) (h : readResponse w.stream = some (r, s)) :
    (getFileSize f w).2 = { w with sent := w.sent ++ [("SIZE ").data ++ f], stream := s } := by
  unfold getFileSize
  rw [sendCommand_of_some _ _ r s h]
  by_cases h213 : ("213").data.isPrefixOf r = true
  · by_cases hlen : 2 ≤ (goFields r).length
    · cases hat : atoi ((goFields r)[1]?.getD []) with
      | none => simp [h213, hlen, hat]
      | some v => simp [h213, hlen, hat]
    · simp [h213, hlen]
  · simp only [Bool.not_eq_true] at h213
    simp [h213]

/-- Claim C3: for `list`, `stor` and `retr`, once the transfer phase
succeeds, exactly one more response is read (the remaining stream is
exactly the remainder after that read); a `226`-class response completes
the command with no warning, a `426`-class response prints the
soft warning and still returns success, and any other code is a hard
failure carrying that response. -/
theorem c3_transfer_close :
    (∀ (args : List (List Char)) (env : Env) (w : World) (r150 closeResp : List Char)
        (s1 s2 : List (List Char)),
      w.conn.isAuthenticated = true → w.conn.dataAddr ≠ [] →
      env.dialOk = true → env.copyOk = true →
      readResponse w.stream = some (r150, s1) →
      ("150").data.isPrefixOf r150 = true →
      readResponse s1 = some (closeResp, s2) →
      ((handleList args env w).2.stream = s2 ∧
       (("226").data.isPrefixOf closeResp = true →
         (handleList args env w).1 = HRes.ok ∧
         (handleList args env w).2.warns = w.warns) ∧
       (("426").data.isPrefixOf closeResp = true →
         (handleList args env w).1 = HRes.ok ∧
         (handleList args env w).2.warns = w.warns ++ [Warn.closeWarn]) ∧
       (("226").data.isPrefixOf closeResp = false →
         ("426").data.isPrefixOf closeResp = false →
         (handleList args env w).1 = HRes.errRes (CmdErr.transferFailed closeResp)))) ∧
    (∀ (filename : List Char) (t : List (List Char)) (env : Env) (w : World)
        (r150 closeResp : List Char) (s1 s2 : List (List Char)),
      w.conn.isAuthenticated = true → w.conn.dataAddr ≠ [] →
      env.dialOk = true → env.fileOk = true → env.copyOk = true →
      readResponse w.stream = some (r150, s1) →
      ("150").data.isPrefixOf r150 = true →
      readResponse s1 = some (closeResp, s2) →
      ((handleStor (filename :: t) env w).2.stream = s2 ∧
       (("226").data.isPrefixOf closeResp = true →
         (handleStor (filename :: t) env w).1 = HRes.ok ∧
         (handleStor (filename :: t) env w).2.warns = w.warns) ∧
       (("426").data.isPrefixOf closeResp = true →
         (handleStor (filename :: t) env w).1 = HRes.ok ∧
         (handleStor (filename :: t) env w).2.warns = w.warns ++ [Warn.closeWarn]) ∧
       (("226").data.isPrefixOf closeResp = false →
         ("426").data.isPrefixOf closeResp = false →
         (handleStor (filename :: t) env w).1 =
           HRes.errRes (CmdErr.transferFailed closeResp)))) ∧
    (∀ (filename : List Char) (t : List (List Char)) (env : Env) (w : World)
        (szResp r150 closeResp : List Char) (s1 s2 s3 : List (List Char)),
      w.conn.isAuthenticated = true → w.conn.dataAddr ≠ [] → w.warns = [] →
      env.dialOk = true → env.fileOk = true → env.copyOk = true →
      readResponse w.stream = some (szResp, s1) →
      readResponse s1 = some (r150, s2) →
      ("150").data.isPrefixOf r150 = true →
      readResponse s2 = some (closeResp, s3) →
      ((handleRetr (filename :: t) env w).2.stream = s3 ∧
       (("226").data.isPrefixOf closeResp = true →
         (handleRetr (filename :: t) env w).1 = HRes.ok ∧
         Warn.closeWarn ∉ (handleRetr (filename :: t) env w).2.warns) ∧
       (("426").data.isPrefixOf closeResp = true →
         (handleRetr (filename :: t) env w).1 = HRes.ok ∧
         Warn.closeWarn ∈ (handleRetr (filename :: t) env w).2.warns) ∧
       (("226").data.isPrefixOf closeResp = false →
         ("426").data.isPrefixOf closeResp = false →
         (handleRetr (filename :: t) env w).1 =
           HRes.errRes (CmdErr.transferFailed closeResp)))) := by
  refine ⟨?_, ?_, ?_⟩
  · intro args env w r150 closeResp s1 s2 hauth hda hdial hcopy h1 hpre h2
    have hred : handleList args env w =
        transferFinish { w with
          sent := w.sent ++
            [match args with | [] => ("LIST").data | a :: _ => ("LIST ").data ++ a],
          stream := s1 } := by
      unfold handleList requireAuth
      simp only [hauth, if_true]
      rw [if_neg hda]
      cases args with
      | nil =>
        rw [sendCommand_of_some _ _ r150 s1 h1]
        simp [hpre, hdial, hcopy]
      | cons a t =>
        rw [sendCommand_of_some _ _ r150 s1 h1]
        simp [hpre, hdial, hcopy]
    rw [hred, transferFinish_cases _ closeResp s2 (by simpa using h2)]
    refine ⟨?_, ?_, ?_, ?_⟩
    · by_cases h226 : ("226").data.isPrefixOf closeResp = true
      · simp [h226]
      · simp only [Bool.not_eq_true] at h226
        by_cases h426 : ("426").data.isPrefixOf closeResp = true
        · simp [h226, h426]
        · simp only [Bool.not_eq_true] at h426
          simp [h226, h426]
    · intro h226
      refine ⟨by simp [h226], by simp [h226]⟩
    · intro h426
      have h226 := prefix3_exclusive '4' '2' '6' '2' '2' '6' closeResp (by decide) h426
      refine ⟨by simp [h226, h426], by simp [h226, h426]⟩
    · intro h226 h426
      simp [h226, h426]
  · intro filename t env w r150 closeResp s1 s2 hauth hda hdial hfile hcopy h1 hpre h2
    have hred : handleStor (filename :: t) env w =
        transferFinish { w with
          sent := w.sent ++ [("STOR ").data ++ filename], stream := s1 } := by
      unfold handleStor requireAuth
      simp only [hauth, if_true]
      rw [if_neg hda]
      rw [sendCommand_of_some _ _ r150 s1 h1]
      simp [hpre, hdial, hfile, hcopy]
    rw [hred, transferFinish_cases _ closeResp s2 (by simpa using h2)]
    refine ⟨?_, ?_, ?_, ?_⟩
    · by_cases h226 : ("226").data.isPrefixOf closeResp = true
      · simp [h226]
      · simp only [Bool.not_eq_true] at h226
        by_cases h426 : ("426").data.isPrefixOf closeResp = true
        · simp [h226, h426]
        · simp only [Bool.not_eq_true] at h426
          simp [h226, h426]
    · intro h226
      refine ⟨by simp [h226], by simp [h226]⟩
    · intro h426
      have h226 := prefix3_exclusive '4' '2' '6' '2' '2' '6' closeResp (by decide) h426
      refine ⟨by simp [h226, h426], by simp [h226, h426]⟩
    · intro h226 h426
      simp [h226, h426]
  · intro filename t env w szResp r150 closeResp s1 s2 s3 hauth hda hw hdial hfile hcopy
      h1 h2 hpre h3
    have hred : ∃ ws : List Warn, Warn.closeWarn ∉ ws ∧
        handleRetr (filename :: t) env w =
          transferFinish { w with
            sent := w.sent ++ [("SIZE ").data ++ filename, ("RETR ").data ++ filename],
            stream := s2, warns := ws } := by
      rcases hgf : getFileSize filename w with ⟨res, wa⟩
      have hwa : wa =
          { w with sent := w.sent ++ [("SIZE ").data ++ filename], stream := s1 } := by
        have hq := getFileSize_world filename w szResp s1 h1
        rw [hgf] at hq
        exact hq
      cases res with
      | error e =>
        refine ⟨w.warns ++ [Warn.sizeWarn], by simp [hw], ?_⟩
        unfold handleRetr requireAuth
        simp only [hauth, if_true]
        rw [if_neg hda, hgf]
        simp only [hwa]
        rw [sendCommand_of_some _ _ r150 s2 (by simpa using h2)]
        simp [hpre, hdial, hfile, hcopy]
      | ok v =>
        refine ⟨w.warns, by simp [hw], ?_⟩
        unfold handleRetr requireAuth
        simp only [hauth, if_true]
        rw [if_neg hda, hgf]
        simp only [hwa]
        rw [sendCommand_of_some _ _ r150 s2 (by simpa using h2)]
        simp [hpre, hdial, hfile, hcopy]
    rcases hred with ⟨ws, hws, hred⟩
    rw [hred, transferFinish_cases _ closeResp s3 (by simpa using h3)]
    refine ⟨?_, ?_, ?_, ?_⟩
    · by_cases h226 : ("226").data.isPrefixOf closeResp = true
      · simp [h226]
      · simp only [Bool.not_eq_true] at h226
        by_cases h426 : ("426").data.isPrefixOf closeResp = true
        · simp [h226, h426]
        · simp only [Bool.not_eq_true] at h426
          simp [h226, h426]
    · intro h226
      refine ⟨by simp [h226], by simp [h226, hws]⟩
    · intro h426
      have h226 := prefix3_exclusive '4' '2' '6' '2' '2' '6' closeResp (by decide) h426
      refine ⟨by simp [h226, h426], by simp [h226, h426]⟩
    · intro h226 h426
      simp [h226, h426]

/-- Claim C3, witness: the spec's end-to-end scenario 4 — after the data
phase, the control channel answers `426 Connection closed; transfer
aborted`; `retr` reports the soft warning, returns success, and has read
exactly the one closing response. -/
theorem c3_transfer_close_witness :
    (handleRetr [("a.txt").data] (Env.mk true true true)
        (mkWorld true (("127.0.0.1:1039").data)
          [("213 5\n").data, ("150 Opening data connection\n").data,
           ("426 Connection closed; transfer aborted\n").data])).1 = HRes.ok ∧
    Warn.closeWarn ∈
      (handleRetr [("a.txt").data] (Env.mk true true true)
        (mkWorld true (("127.0.0.1:1039").data)
          [("213 5\n").data, ("150 Opening data connection\n").data,
           ("426 Connection closed; transfer aborted\n").data])).2.warns ∧
    (handleRetr [("a.txt").data] (Env.mk true true true)
        (mkWorld true (("127.0.0.1:1039").data)
          [("213 5\n").data, ("150 Opening data connection\n").data,
           ("426 Connection closed; transfer aborted\n").data])).2.stream = [] := by
  have h := c3_transfer_close.2.2 (("a.txt").data) [] (Env.mk true true true)
    (mkWorld true (("127.0.0.1:1039").data)
      [("213 5\n").data, ("150 Opening data connection\n").data,
       ("426 Connection closed; transfer aborted\n").data])
    (("213 5\n").data) (("150 Opening data connection\n").data)
    (("426 Connection closed; transfer aborted\n").data)
    [("150 Opening data connection\n").data,
     ("426 Connection closed; transfer aborted\n").data]
    [("426 Connection closed; transfer aborted\n").data] []
    (by decide) (by decide) (by decide) (by decide) (by decide) (by decide)
    (by decide) (by decide) (by decide) (by decide)
  exact ⟨(h.2.2.1 (by decide)).1, (h.2.2.1 (by decide)).2, h.1⟩

/-! ### Claim C6: keep-alive stop idempotence -/

/-- Claim C6, code bug: stopping a never-started keep-alive is a safe
no-op (the `nil` guard), but stopping again after a completed stop
executes `close` on an already-closed channel, which is a Go runtime
panic — not the safe no-op the claim requires. -/
theorem c6_stop_twice_panics :
    stopKeepAlive (mkConn false []) = Except.ok (mkConn false []) ∧
    (stopKeepAlive (startKeepAlive (mkConn false []))).bind stopKeepAlive =
      Except.error () :=
  ⟨rfl, rfl⟩

/-! ### Claim C7: keep-alive resilience -/

/-- Claim C7, counterexample: an ambiguous (not clearly fatal) probe
failure still terminates the keep-alive goroutine — the loop body returns
on every `sendCommand` error without classifying it. -/
theorem c7_keepalive_counterexample :
    isClearlyFatal NetErr.otherErr = false ∧
    (keepAliveIter true KAEvent.tick (Except.error NetErr.otherErr)).outcome =
      KAOutcome.stopped :=
  ⟨rfl, rfl⟩

/-- Claim C7, amended: on a tick of an authenticated session the loop
reports and terminates on every probe failure — fatal or ambiguous alike
— and keeps running only on probe success; a stop signal also ends it. -/
theorem c7_keepalive_amended :
    (∀ e : NetErr, keepAliveIter true KAEvent.tick (Except.error e) =
      { outcome := KAOutcome.stopped, reported := true }) ∧
    (∀ r : List Char, keepAliveIter true KAEvent.tick (Except.ok r) =
      { outcome := KAOutcome.running, reported := false }) ∧
    (∀ probe : Except NetErr (List Char), keepAliveIter true KAEvent.stopSignal probe =
      { outcome := KAOutcome.stopped, reported := false }) :=
  ⟨fun _ => rfl, fun _ => rfl, fun _ => rfl⟩

/-! ### Claim C9: progress callback with unknown size -/

/-- Claim C9, counterexample: with a zero total the progress line still
contains a percentage clause — after five bytes it prints `+Inf%` (the
IEEE-754 value of `5/0*100`), not a bytes-only report. -/
theorem c9_progress_counterexample :
    ((progressRead (ProgressReader.mk 0 0) 5 false).msg).pct = some PctClass.posInf ∧
    ((progressRead (ProgressReader.mk 0 0) 5 false).msg).pct ≠ none :=
  ⟨rfl, by decide⟩

/-- Claim C9, amended: with a zero total, every progress report carries
the correct absolute byte count and passes `(n, err)` through unchanged;
the computation does not trap (the division by the zero total is IEEE
float division), but the printed percentage clause is `NaN%` before any
byte and `+Inf%` afterwards rather than being suppressed. -/
theorem c9_progress_amended :
    ∀ (readSoFar n : Nat) (e : Bool),
      (progressRead (ProgressReader.mk 0 ((readSoFar : Int))) n e).msg.bytes =
        ((readSoFar : Int)) + ((n : Int)) ∧
      (progressRead (ProgressReader.mk 0 ((readSoFar : Int))) n e).msg.total = 0 ∧
      (progressRead (ProgressReader.mk 0 ((readSoFar : Int))) n e).msg.pct =
        some (if readSoFar + n = 0 then PctClass.nan else PctClass.posInf) ∧
      (progressRead (ProgressReader.mk 0 ((readSoFar : Int))) n e).n = n ∧
      (progressRead (ProgressReader.mk 0 ((readSoFar : Int))) n e).errFlag = e := by
  intro readSoFar n e
  refine ⟨rfl, rfl, ?_, rfl, rfl⟩
  by_cases h0 : readSoFar + n = 0
  · have hz : ((readSoFar : Int)) + ((n : Int)) = 0 := by omega
    simp [progressRead, pctClass, hz, h0]
  · have hp : (0 : Int) < ((readSoFar : Int)) + ((n : Int)) := by omega
    simp only [progressRead, pctClass, if_neg h0]
    rw [if_neg (by simp), if_pos hp]

/-! ### Claim C10: REPL input lowercasing -/

theorem char_toNat_ofNat (n : Nat) (h : n < 55296) : (Char.ofNat n).toNat = n := by
  have hv : n.isValidChar := Or.inl h
  unfold Char.ofNat
  rw [dif_pos hv]
  rfl

theorem goToLower_goToLower (c : Char) : goToLower (goToLower c) = goToLower c := by
  unfold goToLower
  by_cases h : 65 ≤ c.toNat ∧ c.toNat ≤ 90
  · rw [if_pos h]
    have h32 : (Char.ofNat (c.toNat + 32)).toNat = c.toNat + 32 :=
      char_toNat_ofNat _ (by omega)
    rw [if_neg (by rw [h32]; omega)]
  · rw [if_neg h, if_neg h]

theorem goToLower_asciiUpper (c : Char) : goToLower (asciiUpper c) = goToLower c := by
  unfold asciiUpper
  by_cases h : 97 ≤ c.toNat ∧ c.toNat ≤ 122
  · rw [if_pos h]
    have hup : (Char.ofNat (c.toNat - 32)).toNat = c.toNat - 32 :=
      char_toNat_ofNat _ (by omega)
    unfold goToLower
    rw [if_pos (by rw [hup]; omega), if_neg (by omega), hup]
    have harith : c.toNat - 32 + 32 = c.toNat := by omega
    rw [harith, Char.ofNat_toNat]
  · rw [if_neg h]

theorem goIsSpace_asciiUpper (c : Char) : goIsSpace (asciiUpper c) = goIsSpace c := by
  unfold asciiUpper
  by_cases h : 97 ≤ c.toNat ∧ c.toNat ≤ 122
  · rw [if_pos h]
    have hup : (Char.ofNat (c.toNat - 32)).toNat = c.toNat - 32 :=
      char_toNat_ofNat _ (by omega)
    have h1 : goIsSpace (Char.ofNat (c.toNat - 32)) = false := by
      simp only [goIsSpace, hup, Bool.or_eq_false_iff, decide_eq_false_iff_not]
      omega
    have h2 : goIsSpace c = false := by
      simp only [goIsSpace, Bool.or_eq_false_iff, decide_eq_false_iff_not]
      omega
    rw [h1, h2]
  · rw [if_neg h]

theorem trimSpace_map_asciiUpper (l : List Char) :
    trimSpace (l.map asciiUpper) = (trimSpace l).map asciiUpper := by
  unfold trimSpace
  rw [List.dropWhile_map, ← List.map_reverse, List.dropWhile_map, ← List.map_reverse]
  simp only [Function.comp_def, goIsSpace_asciiUpper]

theorem mem_goFieldsAux : ∀ (l cur t : List Char), t ∈ goFieldsAux l cur →
    ∀ c ∈ t, c ∈ l ∨ c ∈ cur := by
  intro l
  induction l with
  | nil =>
    intro cur t ht c hc
    unfold goFieldsAux at ht
    by_cases hcur : cur = []
    · simp [hcur] at ht
    · rw [if_neg hcur] at ht
      simp only [List.mem_singleton] at ht
      right
      rw [ht] at hc
      simpa using hc
  | cons x xs ih =>
    intro cur t ht c hc
    unfold goFieldsAux at ht
    by_cases hsp : goIsSpace x = true
    · rw [if_pos hsp] at ht
      by_cases hcur : cur = []
      · rw [if_pos hcur] at ht
        rcases ih [] t ht c hc with h | h
        · exact Or.inl (List.mem_cons_of_mem x h)
        · simp at h
      · rw [if_neg hcur] at ht
        rcases List.mem_cons.mp ht with h | h
        · right
          rw [h] at hc
          simpa using hc
        · rcases ih [] t h c hc with h2 | h2
          · exact Or.inl (List.mem_cons_of_mem x h2)
          · simp at h2
    · rw [if_neg hsp] at ht
      rcases ih (x :: cur) t ht c hc with h | h
      · exact Or.inl (List.mem_cons_of_mem x h)
      · rcases List.mem_cons.mp h with h2 | h2
        · exact Or.inl (h2 ▸ List.mem_cons_self x xs)
        · exact Or.inr h2

/-- Claim C10: `cleanInput` lowercases the whole trimmed line before
splitting, so (first conjunct) every character of every token it
produces is fixed by lowercasing; (second conjunct) upcasing the input
line does not change the token list, making the command word match
case-insensitively; and (third conjunct) every argument the REPL
dispatch hands to a handler is already fully lowercased. -/
theorem c10_repl_lowercases :
    (∀ (input t : List Char), t ∈ cleanInput input → ∀ c ∈ t, goToLower c = c) ∧
    (∀ input : List Char, cleanInput (input.map asciiUpper) = cleanInput input) ∧
    (∀ (input : List Char) (cmd : CmdName) (as : List (List Char)),
      replStep input = ReplAction.dispatch cmd as →
      ∀ t ∈ as, ∀ c ∈ t, goToLower c = c) := by
  have hmem : ∀ (input t : List Char), t ∈ cleanInput input → ∀ c ∈ t, goToLower c = c := by
    intro input t ht c hc
    have h1 : c ∈ (trimSpace input).map goToLower := by
      rcases mem_goFieldsAux ((trimSpace input).map goToLower) [] t ht c hc with h | h
      · exact h
      · simp at h
    rcases List.mem_map.mp h1 with ⟨c0, _, hc0⟩
    rw [← hc0]
    exact goToLower_goToLower c0
  refine ⟨hmem, ?_, ?_⟩
  · intro input
    unfold cleanInput
    rw [trimSpace_map_asciiUpper, List.map_map]
    simp only [Function.comp_def, goToLower_asciiUpper]
  · intro input cmd as hstep t ht c hc
    unfold replStep at hstep
    rcases hci : cleanInput input with _ | ⟨w, rest⟩
    · rw [hci] at hstep
      exact ReplAction.noConfusion hstep
    · rw [hci] at hstep
      have hstep2 : (match commandRegistry w with
          | some cmd0 => ReplAction.dispatch cmd0 rest
          | none => ReplAction.unknown) = ReplAction.dispatch cmd as := hstep
      rcases hcr : commandRegistry w with _ | cmd2
      · rw [hcr] at hstep2
        exact ReplAction.noConfusion hstep2
      · rw [hcr] at hstep2
        simp only [ReplAction.dispatch.injEq] at hstep2
        have hrest : t ∈ cleanInput input := by
          rw [hci]
          exact List.mem_cons_of_mem w (hstep2.2 ▸ ht)
        exact hmem input t hrest c hc

/-- Claim C10, witness: `RETR MyFile.TXT` dispatches to the `retr`
handler with the argument already lowercased to `myfile.txt`; upcasing a
line does not change tokenisation; and lowercasing fixes the argument's
characters. -/
theorem c10_repl_lowercases_witness :
    replStep (("RETR MyFile.TXT").data) =
      ReplAction.dispatch CmdName.retr [("myfile.txt").data] ∧
    cleanInput (("list foo").data.map asciiUpper) = cleanInput (("list foo").data) ∧
    goToLower 'm' = 'm' := by
  refine ⟨by decide, c10_repl_lowercases.2.1 (("list foo").data), ?_⟩
  exact c10_repl_lowercases.2.2 (("RETR MyFile.TXT").data) CmdName.retr
    [("myfile.txt").data] (by decide) (("myfile.txt").data) (by decide) 'm' (by decide)
